import Mathlib

/-!
Shallow embedding of the buddy/direct-map allocator in `src/forme.cpp`.

Modelling conventions
- Addresses are natural numbers (byte offsets in a flat address space).
  The program break of the process starts at `brk`; `mmap` hands out fresh
  regions starting at `2^32`, far above the 4MB arena, mirroring disjoint
  mappings.
- `size_t` counters are naturals reduced modulo `2^64` (`wadd`/`wsub`),
  matching C unsigned wraparound.  Header `size` fields stay well below
  `2^64` everywhere except the `*= 2` in the merge step, which therefore
  carries an explicit `% 2^64`.
- The doubly linked `BlocksList` of the source keeps its nodes in ascending
  address order (`AddBlock` inserts after every node with a smaller address,
  `RemoveBlock` unlinks a node).  The model represents the chain of nodes by
  the ascending list of their addresses; the `next`/`prev` header fields are
  exactly the chain structure, so they are not duplicated in the header
  record.
- Block headers live in `heap`, a finite map from address to header record.
  Reading a header at an address that was never written corresponds in C to
  reading freshly `sbrk`ed / `mmap`ed memory, which is zero-filled: such a
  read yields `is_free = false` and a cookie that fails the canary check;
  the model's `none` branches implement exactly that behaviour.
  `CutInHalf` writes `cookie`, `size`, `is_free`, `next`, `prev` of the
  second half but not `is_mmap`/`order`; those bytes are zero in the fresh
  arena, so the model writes `false` / `0` for them.
- `sbrk`/`mmap` failures are driven by the state flags `osBrkFail` /
  `osMmapFail` (a failing call returns `(void*)-1` / `MAP_FAILED`).
- Payload bytes are the association list `mem` (address to byte, unwritten
  bytes read 0); only `memset` (in `scalloc`) and `memmove` (in `srealloc`)
  touch it, as in the source.  Header writes never alias `mem`.
-/

/-- `2^64`, the modulus of `size_t` arithmetic. -/
def W : Nat := 2 ^ 64

/-- `size_t` addition. -/
def wadd (x y : Nat) : Nat := (x + y) % W

/-- `size_t` subtraction (wraps below zero). -/
def wsub (x y : Nat) : Nat := (x + (W - y % W)) % W

/-- `sizeof(MallocMetadata)` on LP64: 4 (int cookie) + 4 pad + 8 (size_t)
    + 1 + 1 (bools) + 2 pad + 4 (int order) + 8 + 8 (next/prev). -/
def metaSize : Nat := 40

/-- `static int GlobalCookie = 0x12345678`. -/
def GlobalCookie : Int := 0x12345678

/-- `MAX_ORDER`. -/
def MAX_ORDER : Nat := 10

/-- `BLOCK_SIZE = 128 * 1024`. -/
def BLOCK_SIZE : Nat := 131072

/-- `NUM_INIT_BLOCKS`. -/
def NUM_INIT_BLOCKS : Nat := 32

/-- The block header `struct MallocMetadata` (without `next`/`prev`, which
    the list model carries as positions, see the header comment). -/
structure MallocMetadata where
  cookie : Int
  size : Nat
  is_free : Bool
  is_mmap : Bool
  order : Int
  deriving Repr, DecidableEq

/-- Finite map from block address to its header. -/
def Heap : Type := List (Nat × MallocMetadata)

instance : DecidableEq Heap := by unfold Heap; infer_instance

instance : Repr Heap := by unfold Heap; infer_instance

/-- Header read. -/
def hget : Heap → Nat → Option MallocMetadata
  | [], _ => none
  | (b, mb) :: t, a => if b = a then some mb else hget t a

/-- Header write (insert or overwrite). -/
def hset : Heap → Nat → MallocMetadata → Heap
  | [], a, m => [(a, m)]
  | (b, mb) :: t, a, m => if b = a then (a, m) :: t else (b, mb) :: hset t a m

/-- Unmapping a header (used by `munmap`). -/
def hdelete : Heap → Nat → Heap
  | [], _ => []
  | (b, mb) :: t, a => if b = a then hdelete t a else (b, mb) :: hdelete t a

/-- Insertion into the address-ascending chain: after every node with a
    smaller address (the `while(curr->next && curr->next < b)` walk). -/
def insertSorted (a : Nat) : List Nat → List Nat
  | [] => [a]
  | b :: t => if a < b then a :: b :: t else b :: insertSorted a t

/-- `class BlocksList`: head of the chain (as the ascending address list)
    plus its five embedded statistics counters. -/
structure BlocksList where
  blocks : List Nat
  num_free_blocks : Nat
  num_free_bytes : Nat
  num_allocated_blocks : Nat
  num_allocated_bytes : Nat
  num_meta_data_bytes : Nat
  deriving Repr, DecidableEq

/-- A `BlocksList` after its constructor ran. -/
def emptyBL : BlocksList := ⟨[], 0, 0, 0, 0, 0⟩

/-- `BlocksList::AddBlock`: bump the counters from the header of `b`, then
    insert `b` into the chain in address order.  The source's `if(!b)`
    guard corresponds to the absent-header branch. -/
def AddBlock (h : Heap) (l : BlocksList) (b : Nat) : BlocksList :=
  match hget h b with
  | none => l
  | some m =>
    { blocks := insertSorted b l.blocks
      num_allocated_blocks := wadd l.num_allocated_blocks 1
      num_allocated_bytes := wadd l.num_allocated_bytes m.size
      num_meta_data_bytes := wadd l.num_meta_data_bytes metaSize
      num_free_blocks := if m.is_free then wadd l.num_free_blocks 1 else l.num_free_blocks
      num_free_bytes := if m.is_free then wadd l.num_free_bytes m.size else l.num_free_bytes }

/-- `BlocksList::RemoveBlock`: drop the counters from the header of `b`,
    then unlink `b` from the chain. -/
def RemoveBlock (h : Heap) (l : BlocksList) (b : Nat) : BlocksList :=
  match hget h b with
  | none => l
  | some m =>
    { blocks := l.blocks.erase b
      num_allocated_blocks := wsub l.num_allocated_blocks 1
      num_allocated_bytes := wsub l.num_allocated_bytes m.size
      num_meta_data_bytes := wsub l.num_meta_data_bytes metaSize
      num_free_blocks := if m.is_free then wsub l.num_free_blocks 1 else l.num_free_blocks
      num_free_bytes := if m.is_free then wsub l.num_free_bytes m.size else l.num_free_bytes }

/-- `BlocksList::FindFirstFreeBlock`: first chained block that is free and
    at least `needed` bytes. -/
def FindFirstFreeBlock (h : Heap) (l : BlocksList) (needed : Nat) : Option Nat :=
  l.blocks.find? (fun a =>
    match hget h a with
    | some m => m.is_free && decide (m.size ≥ needed)
    | none => false)

/-- Read the `j`-th list of `buddyArray` (out-of-range reads are undefined
    in the source and never happen along modelled paths). -/
def lget : List BlocksList → Nat → BlocksList
  | [], _ => emptyBL
  | l :: _, 0 => l
  | _ :: t, n + 1 => lget t n

/-- Write the `j`-th list of `buddyArray`. -/
def lset : List BlocksList → Nat → BlocksList → List BlocksList
  | [], _, _ => []
  | _ :: t, 0, v => v :: t
  | l :: t, n + 1, v => l :: lset t n v

/-- The whole mutable state of the translation unit: the header heap, the
    eleven order-indexed lists, the mmap list, the payload bytes, the
    `is_buddy_initialized` flag, `BASE`, the program break, the next fresh
    mmap address, and the OS failure switches. -/
structure AllocState where
  heap : Heap
  buddyArray : List BlocksList
  mmapList : BlocksList
  mem : List (Nat × Nat)
  is_buddy_initialized : Bool
  base : Nat
  brk : Nat
  nextMmap : Nat
  osBrkFail : Bool
  osMmapFail : Bool
  deriving Repr, DecidableEq

/-- Process state before the first public call. -/
def freshState : AllocState :=
  ⟨[], List.replicate 11 emptyBL, emptyBL, [], false, 0, 0, 4294967296, false, false⟩

/-- `GetBlockOrder`'s search loop; `fuel = 11 - order` keeps the
    `order <= MAX_ORDER` bound. -/
def gboLoop (size : Nat) : Nat → Nat → Nat → Nat
  | 0, order, _ => order
  | fuel + 1, order, current => if current ≥ size then order else gboLoop size fuel (order + 1) (current * 2)

/-- `GetBlockOrder`: least `i ≤ 10` with `128 * 2^i ≥ size`, `-1` if none. -/
def GetBlockOrder (size : Nat) : Int :=
  let o := gboLoop size 11 0 128
  if o > 10 then -1 else (o : Int)

/-- `initialize_buddy_allocator`.  Note the source sets the
    `is_buddy_initialized` flag before attempting any break extension, and
    on a failed extension returns `false` with the flag left set. -/
def initialize_buddy_allocator (st : AllocState) : AllocState × Bool :=
  if st.is_buddy_initialized then (st, true)
  else
    let st1 := { st with is_buddy_initialized := true }
    let alignment := st1.brk % (NUM_INIT_BLOCKS * BLOCK_SIZE)
    if alignment ≠ 0 ∧ st1.osBrkFail then (st1, false)
    else
      let st2 := if alignment ≠ 0 then { st1 with brk := st1.brk + (NUM_INIT_BLOCKS * BLOCK_SIZE - alignment) } else st1
      if st2.osBrkFail then (st2, false)
      else
        let base := st2.brk
        let st3 := { st2 with base := base, brk := st2.brk + NUM_INIT_BLOCKS * BLOCK_SIZE }
        let st4 := (List.range NUM_INIT_BLOCKS).foldl (fun s i =>
          let a := base + i * BLOCK_SIZE
          let s1 := { s with heap := hset s.heap a ⟨GlobalCookie, BLOCK_SIZE, true, false, 10⟩ }
          { s1 with buddyArray := lset s1.buddyArray 10 (AddBlock s1.heap (lget s1.buddyArray 10) a) }) st3
        (st4, true)

/-- Byte read from `mem` (unwritten bytes of fresh pages read zero). -/
def mgetByte (mem : List (Nat × Nat)) (a : Nat) : Nat :=
  match mem.find? (fun pr => pr.1 == a) with
  | some pr => pr.2
  | none => 0

/-- Byte write into `mem`. -/
def msetByte : List (Nat × Nat) → Nat → Nat → List (Nat × Nat)
  | [], a, v => [(a, v)]
  | (b, w) :: t, a, v => if b = a then (a, v) :: t else (b, w) :: msetByte t a v

/-- `memset(p, 0, n)`. -/
def memsetZero (mem : List (Nat × Nat)) (p n : Nat) : List (Nat × Nat) :=
  (List.range n).foldl (fun m i => msetByte m (p + i) 0) mem

/-- `memmove(dst, src, n)`: overlap-safe, every byte is read from the
    pre-call memory. -/
def memmoveBytes (mem : List (Nat × Nat)) (dst src n : Nat) : List (Nat × Nat) :=
  (List.range n).foldl (fun m i => msetByte m (dst + i) (mgetByte mem (src + i))) mem

/-- `allocate_with_mmap`: fresh mapping of `userSize + sizeof(MallocMetadata)`
    bytes; the header's `size` records the user size only. -/
def allocate_with_mmap (st : AllocState) (userSize : Nat) : AllocState × Option Nat :=
  let totalSize := userSize + metaSize
  if st.osMmapFail then (st, none)
  else
    let addr := st.nextMmap
    let heap1 := hset st.heap addr ⟨GlobalCookie, userSize, false, true, -1⟩
    let mm := AddBlock heap1 st.mmapList addr
    ({ st with heap := heap1, mmapList := mm, nextMmap := addr + totalSize }, some addr)

/-- `free_mmap_block`: unlink from `mmapList`, then `munmap` the whole
    mapping (header and payload bytes become unmapped). -/
def free_mmap_block (st : AllocState) (b : Nat) : AllocState :=
  match hget st.heap b with
  | none => st
  | some m =>
    let mm := RemoveBlock st.heap st.mmapList b
    { st with
      mmapList := mm
      heap := hdelete st.heap b
      mem := st.mem.filter (fun pr => !(decide (b ≤ pr.1) && decide (pr.1 < b + m.size + metaSize))) }

/-- `FindBuddy`: special cases for the first arena block (buddy to the
    right) and the last (buddy to the left), otherwise the
    `(A - BASE) mod 2S` test.  Arena blocks satisfy `BASE ≤ A`, so the
    signed `diff` of the source is the natural subtraction here. -/
def FindBuddy (base : Nat) (block : Nat) (blockSize : Nat) : Nat :=
  if block = base then block + blockSize
  else if block = base + NUM_INIT_BLOCKS * BLOCK_SIZE - blockSize then block - blockSize
  else if (block - base) % (2 * blockSize) = 0 then block + blockSize
  else block - blockSize

/-- The `for(i=desiredOrder..MAX_ORDER)` search of `CutInHalf`; returns the
    order and address of the hit. -/
def scanFrom (st : AllocState) (needed : Nat) : Nat → Nat → Option (Nat × Nat)
  | _, 0 => none
  | i, fuel + 1 =>
    match FindFirstFreeBlock st.heap (lget st.buddyArray i) needed with
    | some a => some (i, a)
    | none => scanFrom st needed (i + 1) fuel

/-- One iteration of `CutInHalf`'s split loop at order `j`: remove the block
    from order `j`, apply the manual counter adjustments of the source
    (which double the ones `RemoveBlock` already made), halve it, create the
    second half, add both halves to order `j-1` and adjust those counters
    again manually. -/
def SplitStep (st : AllocState) (a : Nat) (j : Nat) : AllocState :=
  match hget st.heap a with
  | none => st
  | some m =>
    let lj := RemoveBlock st.heap (lget st.buddyArray j) a
    let lj := { lj with
      num_free_blocks := wsub lj.num_free_blocks 1
      num_free_bytes := wsub lj.num_free_bytes m.size
      num_meta_data_bytes := wsub lj.num_meta_data_bytes metaSize
      num_allocated_blocks := wsub lj.num_allocated_blocks 1
      num_allocated_bytes := wsub lj.num_allocated_bytes m.size }
    let st1 := { st with buddyArray := lset st.buddyArray j lj }
    let half := m.size / 2
    let second := a + half
    let heap1 := hset st1.heap a { m with size := half, is_free := true }
    let heap2 := hset heap1 second ⟨GlobalCookie, half, true, false, 0⟩
    let st2 := { st1 with heap := heap2 }
    let l1 := AddBlock st2.heap (lget st2.buddyArray (j - 1)) a
    let l1 := AddBlock st2.heap l1 second
    let l1 := { l1 with
      num_free_bytes := wsub (wadd l1.num_free_bytes (2 * half)) metaSize
      num_free_blocks := wadd l1.num_free_blocks 2
      num_meta_data_bytes := wadd l1.num_meta_data_bytes (2 * metaSize)
      num_allocated_blocks := wadd l1.num_allocated_blocks 2
      num_allocated_bytes := wsub (wadd l1.num_allocated_bytes (2 * half)) metaSize }
    { st2 with buddyArray := lset st2.buddyArray (j - 1) l1 }

/-- The split loop `for(j=foundOrder; j>desiredOrder; j--)`; the kept block
    is always the lower-address half, so the address never moves. -/
def splitLoop : AllocState → Nat → Nat → Nat → AllocState × Nat
  | st, a, _, 0 => (st, a)
  | st, a, j, fuel + 1 => splitLoop (SplitStep st a j) a (j - 1) fuel

/-- `CutInHalf`: locate a free block of sufficient order, then split it down
    to the desired order. -/
def CutInHalf (st : AllocState) (sizeNeeded : Nat) : AllocState × Option Nat :=
  let d := GetBlockOrder sizeNeeded
  if d < 0 then (st, none)
  else
    let dn := d.toNat
    match scanFrom st sizeNeeded dn (11 - dn) with
    | none => (st, none)
    | some (fo, a) =>
      let r := splitLoop st a fo (fo - dn)
      (r.1, some r.2)

/-- One merge of `MergeBuddies` at order `j`: both blocks leave list `j`
    (with a second, manual counter adjustment), the lower-address one is
    added to list `j+1` (the source inserts it before doubling its size,
    so `AddBlock` accounts the old size), its size doubles, and list
    `j+1`'s counters are adjusted manually with the new size. -/
def MergeStep (st : AllocState) (b bud : Nat) (j : Nat) : AllocState :=
  match hget st.heap b, hget st.heap bud with
  | some m, some mb =>
    let lj := RemoveBlock st.heap (lget st.buddyArray j) b
    let lj := RemoveBlock st.heap lj bud
    let lj := { lj with
      num_free_blocks := wsub lj.num_free_blocks 2
      num_free_bytes := wsub lj.num_free_bytes (2 * m.size)
      num_meta_data_bytes := wsub lj.num_meta_data_bytes (2 * metaSize)
      num_allocated_blocks := wsub lj.num_allocated_blocks 2
      num_allocated_bytes := wsub lj.num_allocated_bytes (2 * m.size) }
    let st1 := { st with buddyArray := lset st.buddyArray j lj }
    if bud < b then
      let l1 := AddBlock st1.heap (lget st1.buddyArray (j + 1)) bud
      let newSize := mb.size * 2 % W
      let heap2 := hset st1.heap bud { mb with size := newSize }
      let l1 := { l1 with
        num_free_bytes := wadd (wadd l1.num_free_bytes newSize) metaSize
        num_free_blocks := wadd l1.num_free_blocks 1
        num_meta_data_bytes := wadd l1.num_meta_data_bytes metaSize
        num_allocated_blocks := wadd l1.num_allocated_blocks 1
        num_allocated_bytes := wadd (wadd l1.num_allocated_bytes newSize) metaSize }
      { st1 with heap := heap2, buddyArray := lset st1.buddyArray (j + 1) l1 }
    else
      let l1 := AddBlock st1.heap (lget st1.buddyArray (j + 1)) b
      let newSize := m.size * 2 % W
      let heap2 := hset st1.heap b { m with size := newSize }
      let l1 := { l1 with
        num_free_bytes := wadd (wadd l1.num_free_bytes newSize) metaSize
        num_free_blocks := wadd l1.num_free_blocks 1
        num_meta_data_bytes := wadd l1.num_meta_data_bytes metaSize
        num_allocated_blocks := wadd l1.num_allocated_blocks 1
        num_allocated_bytes := wadd (wadd l1.num_allocated_bytes newSize) metaSize }
      { st1 with heap := heap2, buddyArray := lset st1.buddyArray (j + 1) l1 }
  | _, _ => st

/-- The `for(j=currentOrder; j<mergeTillOrder; j++)` loop of `MergeBuddies`:
    the only test before merging is the `is_free` flag of the header found
    at the computed buddy address (an absent header reads as zeroed fresh
    memory, i.e. not free). -/
def MergeLoop : AllocState → Nat → Nat → Nat → AllocState
  | st, _, _, 0 => st
  | st, b, j, fuel + 1 =>
    match hget st.heap b with
    | none => st
    | some m =>
      let bud := FindBuddy st.base b m.size
      match hget st.heap bud with
      | none => st
      | some mb =>
        if mb.is_free then
          MergeLoop (MergeStep st b bud j) (if bud < b then bud else b) (j + 1) fuel
        else st

/-- `MergeBuddies`.  `mergeTillOrder = -1` means `MAX_ORDER`.  A negative
    `GetBlockOrder` would index `buddyArray[-1]`, which is undefined in the
    source and unreachable along modelled paths; the model stops there. -/
def MergeBuddies (st : AllocState) (b : Nat) (tillOrder : Int) : AllocState :=
  match hget st.heap b with
  | none => st
  | some m =>
    if m.cookie ≠ GlobalCookie then st
    else
      let co := GetBlockOrder m.size
      let till : Int := if tillOrder = -1 then (MAX_ORDER : Int) else tillOrder
      if co < 0 then st
      else MergeLoop st b co.toNat (till - co).toNat

/-- The walk of `CheckIfMergePossible`: note it keeps
    `curr = buddy < oldBlock ? buddy : oldBlock` (comparing against the
    original block, not the running one) and accepts buddies on either
    side. -/
def cimpLoop (st : AllocState) (oldA newSize : Nat) : Nat → Nat → Nat → Nat → Int
  | _, _, _, 0 => -1
  | curr, currentSize, j, fuel + 1 =>
    if currentSize ≥ newSize then (j : Int)
    else
      let bud := FindBuddy st.base curr currentSize
      match hget st.heap bud with
      | none => -1
      | some mb =>
        if mb.is_free then
          cimpLoop st oldA newSize (if bud < oldA then bud else oldA) (currentSize * 2 % W) (j + 1) fuel
        else -1

/-- `CheckIfMergePossible`: the order at which rightward-and-leftward
    accumulated merging would reach `newSize`, or `-1`. -/
def CheckIfMergePossible (st : AllocState) (a : Nat) (newSize : Nat) : Int :=
  match hget st.heap a with
  | none => -1
  | some m =>
    if m.cookie ≠ GlobalCookie then -1
    else
      let so := GetBlockOrder m.size
      if so < 0 then -1
      else cimpLoop st a newSize a m.size so.toNat (10 - so.toNat)

/-- `smalloc`.  Initialization is ensured before the size checks; a request
    with `size + sizeof(MallocMetadata) > BLOCK_SIZE` goes to `mmap`,
    otherwise to `CutInHalf`, after which the block is marked used and the
    order-level free counters are decremented once more by hand. -/
def smalloc (st : AllocState) (size : Nat) : AllocState × Option Nat :=
  let ir := if st.is_buddy_initialized then (st, true) else initialize_buddy_allocator st
  if ir.2 = false then (ir.1, none)
  else if size = 0 ∨ size > 100000000 then (ir.1, none)
  else if size + metaSize > BLOCK_SIZE then
    let mr := allocate_with_mmap ir.1 size
    match mr.2 with
    | none => (mr.1, none)
    | some meta => (mr.1, some (meta + metaSize))
  else
    let needed := size + metaSize
    let cr := CutInHalf ir.1 needed
    match cr.2 with
    | none => (cr.1, none)
    | some fb =>
      let st3 :=
        match hget cr.1.heap fb with
        | none => cr.1
        | some m =>
          let stA := { cr.1 with heap := hset cr.1.heap fb { m with is_free := false } }
          let i := GetBlockOrder m.size
          if i < 0 then stA
          else
            let li := lget stA.buddyArray i.toNat
            let li := { li with
              num_free_blocks := wsub li.num_free_blocks 1
              num_free_bytes := wsub li.num_free_bytes m.size }
            { stA with buddyArray := lset stA.buddyArray i.toNat li }
      (st3, some (fb + metaSize))

/-- `scalloc`: zero/overflow checks (the product in `size_t` wraps), then
    `smalloc` and `memset`. -/
def scalloc (st : AllocState) (num size : Nat) : AllocState × Option Nat :=
  if num = 0 ∨ size = 0 then (st, none)
  else
    let totalSize := num * size % W
    if size ≠ 0 ∧ totalSize / size ≠ num then (st, none)
    else
      let r := smalloc st totalSize
      match r.2 with
      | none => (r.1, none)
      | some p => ({ r.1 with mem := memsetZero r.1.mem p totalSize }, some p)

/-- `sfree`: null, bad-canary and already-free pointers are silent no-ops;
    an mmap block is unlinked and unmapped; a buddy block is marked free,
    added to its order list (whose free counters the source then bumps a
    second time by hand) and merged upward. -/
def sfree (st : AllocState) (p : Option Nat) : AllocState :=
  match p with
  | none => st
  | some ptr =>
    let a := ptr - metaSize
    match hget st.heap a with
    | none => st
    | some m =>
      if m.cookie ≠ GlobalCookie then st
      else if m.is_free then st
      else if m.is_mmap then
        free_mmap_block { st with heap := hset st.heap a { m with is_free := true } } a
      else
        let st1 := { st with heap := hset st.heap a { m with is_free := true } }
        let i := GetBlockOrder m.size
        if i < 0 then st1
        else
          let li := AddBlock st1.heap (lget st1.buddyArray i.toNat) a
          let li := { li with
            num_free_blocks := wadd li.num_free_blocks 1
            num_free_bytes := wsub (wadd li.num_free_bytes m.size) metaSize }
          let st2 := { st1 with buddyArray := lset st1.buddyArray i.toNat li }
          MergeBuddies st2 a (-1)

/-- `srealloc`. -/
def srealloc (st : AllocState) (oldp : Option Nat) (newSize : Nat) : AllocState × Option Nat :=
  if newSize = 0 then (sfree st oldp, none)
  else
    match oldp with
    | none => smalloc st newSize
    | some p =>
      let a := p - metaSize
      match hget st.heap a with
      | none => (st, none)
      | some m =>
        if m.cookie ≠ GlobalCookie then (st, none)
        else if m.size ≥ newSize then (st, some p)
        else
          let mergeOrder : Int :=
            if m.is_mmap then -1
            else CheckIfMergePossible st a ((newSize + metaSize) % W)
          if mergeOrder ≠ -1 then
            let st1 := MergeBuddies st a mergeOrder
            let st2 :=
              match hget st1.heap a with
              | none => st1
              | some m2 =>
                let li := lget st1.buddyArray mergeOrder.toNat
                let li := { li with
                  num_free_bytes := wadd (wsub li.num_free_bytes m2.size) (m2.size / 2) }
                { st1 with buddyArray := lset st1.buddyArray mergeOrder.toNat li }
            (st2, some p)
          else
            let r := smalloc st newSize
            match r.2 with
            | none => (r.1, none)
            | some np =>
              let oldSz := match hget r.1.heap a with | some m3 => m3.size | none => 0
              let bytesToCopy := if oldSz < newSize then oldSz else newSize
              let st2 := { r.1 with mem := memmoveBytes r.1.mem np p bytesToCopy }
              (sfree st2 (some p), some np)

/-- `_num_free_blocks`: sum of the per-order and mmap free-block counters
    (in `size_t` arithmetic). -/
def _num_free_blocks (st : AllocState) : Nat :=
  wadd (((List.range 11).map (fun j => (lget st.buddyArray j).num_free_blocks)).foldl wadd 0)
    st.mmapList.num_free_blocks

/-- `_size_meta_data`. -/
def _size_meta_data : Nat := metaSize

/-- The quantity the specification's invariant I1 equates with
    `_num_free_blocks`: blocks currently enrolled in the order-indexed free
    lists, plus free blocks of the large registry. -/
def enrolledFreeBlocks (st : AllocState) : Nat :=
  ((List.range 11).map (fun j => (lget st.buddyArray j).blocks.length)).sum
    + (st.mmapList.blocks.filter (fun a =>
        match hget st.heap a with
        | some m => m.is_free
        | none => false)).length

/-- State right after a successful first initialization (break starts
    aligned at 0, so `BASE = 0`). -/
def initState : AllocState := (initialize_buddy_allocator freshState).1

/-- State after `smalloc(100)` as the first public call. -/
def stAfterAlloc100 : AllocState := (smalloc initState 100).1

/-- Fresh process whose break extensions fail (`sbrk` returns `(void*)-1`). -/
def stFail : AllocState :=
  ⟨[], List.replicate 11 emptyBL, emptyBL, [], false, 0, 0, 4294967296, true, false⟩

/-- Arena state with one allocated order-0 buddy block at address 256
    (payload pointer 296) and nothing free. -/
def stBuddy : AllocState :=
  ⟨[(256, ⟨GlobalCookie, 128, false, false, 0⟩)], List.replicate 11 emptyBL,
    emptyBL, [], true, 0, 4194304, 4294967296, false, false⟩

/-- A block whose header cookie was overwritten (corrupted canary). -/
def stBad : AllocState :=
  ⟨[(0, ⟨0, 128, false, false, 0⟩)], List.replicate 11 emptyBL,
    emptyBL, [], true, 0, 4194304, 4294967296, false, false⟩

/-- A block whose `is_free` flag is already set (double-free scenario). -/
def stFreeB : AllocState :=
  ⟨[(0, ⟨GlobalCookie, 128, true, false, 0⟩)], List.replicate 11 emptyBL,
    emptyBL, [], true, 0, 4194304, 4294967296, false, false⟩

/-- A live direct-mapped block of payload 100 at address 4096. -/
def stMmap : AllocState :=
  ⟨[(4096, ⟨GlobalCookie, 100, false, true, -1⟩)], List.replicate 11 emptyBL,
    ⟨[4096], 0, 0, 1, 100, 40⟩, [], true, 0, 4194304, 4294967296, false, false⟩

/-- Arena with a free order-0 block at address 0 (enrolled at order 0) and
    an allocated order-1 block at address 256: the order-1 block's buddy
    address is 0, whose block has a different order. -/
def stC4 : AllocState :=
  ⟨[(0, ⟨GlobalCookie, 128, true, false, 0⟩), (256, ⟨GlobalCookie, 256, false, false, 1⟩)],
    lset (List.replicate 11 emptyBL) 0 ⟨[0], 1, 88, 1, 128, 40⟩,
    emptyBL, [], true, 0, 4194304, 4294967296, false, false⟩

/-- Arena with a free order-0 block at address 0 and an allocated order-0
    block at address 128 (payload pointer 168): the allocated block's only
    buddy is to its left. -/
def stC6 : AllocState :=
  ⟨[(0, ⟨GlobalCookie, 128, true, false, 0⟩), (128, ⟨GlobalCookie, 128, false, false, 0⟩)],
    lset (List.replicate 11 emptyBL) 0 ⟨[0, 128], 1, 88, 2, 256, 80⟩,
    emptyBL, [], true, 0, 4194304, 4294967296, false, false⟩

/-- An allocated buddy block of footprint 128 (payload 88) at address 0 and
    a live direct-mapped block of payload 88 at address 4096: equal
    payloads under the two size conventions. -/
def stMix : AllocState :=
  ⟨[(0, ⟨GlobalCookie, 128, false, false, 0⟩), (4096, ⟨GlobalCookie, 88, false, true, -1⟩)],
    List.replicate 11 emptyBL,
    ⟨[4096], 0, 0, 1, 88, 40⟩, [], true, 0, 4194304, 4294967296, false, false⟩

/-! ### Basic lemmas about the heap, list and array helpers -/

theorem hget_hset_self (h : Heap) (a : Nat) (m : MallocMetadata) :
    hget (hset h a m) a = some m := by
  induction h with
  | nil => simp [hset, hget]
  | cons p t ih =>
    obtain ⟨b, mb⟩ := p
    by_cases hba : b = a
    · simp [hset, hget, hba]
    · simp [hset, hget, hba, ih]

theorem hget_hset_ne (h : Heap) (a : Nat) (m : MallocMetadata) (x : Nat) (hx : x ≠ a) :
    hget (hset h a m) x = hget h x := by
  have hax : a ≠ x := fun hh => hx hh.symm
  induction h with
  | nil => simp [hset, hget, hax]
  | cons p t ih =>
    obtain ⟨b, mb⟩ := p
    by_cases hba : b = a
    · subst hba; simp [hset, hget, hax]
    · simp [hset, hget, hba, ih]

theorem hget_hdelete_self (h : Heap) (a : Nat) : hget (hdelete h a) a = none := by
  induction h with
  | nil => simp [hdelete, hget]
  | cons p t ih =>
    obtain ⟨b, mb⟩ := p
    by_cases hba : b = a
    · simp [hdelete, hget, hba, ih]
    · simp [hdelete, hget, hba, ih]

theorem insertSorted_self_mem (l : List Nat) (a : Nat) : a ∈ insertSorted a l := by
  induction l with
  | nil => simp [insertSorted]
  | cons b t ih =>
    by_cases hab : a < b
    · simp [insertSorted, hab]
    · simp [insertSorted, hab]
      right; exact ih

theorem lset_length (l : List BlocksList) (i : Nat) (v : BlocksList) :
    (lset l i v).length = l.length := by
  induction l generalizing i with
  | nil => rfl
  | cons x t ih =>
    cases i with
    | zero => rfl
    | succ n => simpa [lset] using ih n

theorem lget_lset_self (l : List BlocksList) (i : Nat) (v : BlocksList) (hi : i < l.length) :
    lget (lset l i v) i = v := by
  induction l generalizing i with
  | nil => simp at hi
  | cons x t ih =>
    cases i with
    | zero => rfl
    | succ n => exact ih n (by simpa using hi)

theorem lget_lset_ne (l : List BlocksList) (i j : Nat) (v : BlocksList) (hij : i ≠ j) :
    lget (lset l i v) j = lget l j := by
  induction l generalizing i j with
  | nil => rfl
  | cons x t ih =>
    cases i with
    | zero =>
      cases j with
      | zero => exact absurd rfl hij
      | succ n => rfl
    | succ n =>
      cases j with
      | zero => rfl
      | succ k => exact ih n k (by omega)

theorem lget_replicate (n j : Nat) : lget (List.replicate n emptyBL) j = emptyBL := by
  induction n generalizing j with
  | zero => rfl
  | succ k ih =>
    cases j with
    | zero => rfl
    | succ i => simpa [List.replicate] using ih i

theorem notMem_erase_self_of_nodup (l : List Nat) (a : Nat) (h : l.Nodup) :
    a ∉ l.erase a := by
  intro hx
  exact absurd rfl ((List.Nodup.mem_erase_iff h).mp hx).1

/-! ### The merge engine only rewrites `size` fields in the heap -/

theorem isFree_MergeStep (st : AllocState) (b bud j x : Nat) :
    (hget (MergeStep st b bud j).heap x).map (fun mm => mm.is_free)
      = (hget st.heap x).map (fun mm => mm.is_free) := by
  unfold MergeStep
  cases hm : hget st.heap b with
  | none => simp
  | some m =>
    cases hmb : hget st.heap bud with
    | none => simp
    | some mb =>
      by_cases hlt : bud < b
      · simp only [hlt, if_true]
        by_cases hx : x = bud
        · subst hx; simp [hget_hset_self, hmb]
        · simp [hget_hset_ne _ _ _ _ hx]
      · simp only [hlt, if_false]
        by_cases hx : x = b
        · subst hx; simp [hget_hset_self, hm]
        · simp [hget_hset_ne _ _ _ _ hx]

theorem isFree_MergeLoop (fuel : Nat) :
    ∀ (st : AllocState) (b j x : Nat),
    (hget (MergeLoop st b j fuel).heap x).map (fun mm => mm.is_free)
      = (hget st.heap x).map (fun mm => mm.is_free) := by
  induction fuel with
  | zero => intro st b j x; rfl
  | succ f ih =>
    intro st b j x
    unfold MergeLoop
    split
    · rfl
    · dsimp only
      split
      · rfl
      · split
        · rw [ih, isFree_MergeStep]
        · rfl

theorem isFree_MergeBuddies (st : AllocState) (b : Nat) (tillOrder : Int) (x : Nat) :
    (hget (MergeBuddies st b tillOrder).heap x).map (fun mm => mm.is_free)
      = (hget st.heap x).map (fun mm => mm.is_free) := by
  unfold MergeBuddies
  cases hm : hget st.heap b with
  | none => rfl
  | some m =>
    by_cases hc : m.cookie ≠ GlobalCookie
    · simp [hc]
    · simp only [hc, if_false]
      by_cases hco : GetBlockOrder m.size < 0
      · simp [hco]
      · simp only [hco, if_false]
        exact isFree_MergeLoop _ st b _ x

/-! ### `GetBlockOrder` computes the least sufficient order -/

theorem gboLoop_spec (fuel : Nat) :
    ∀ (order size : Nat), 0 < size →
    (∀ j, j < order → 128 * 2 ^ j < size) →
    (gboLoop size fuel order (128 * 2 ^ order) = order + fuel
        ∧ (∀ j, j < order + fuel → 128 * 2 ^ j < size))
    ∨ (gboLoop size fuel order (128 * 2 ^ order) < order + fuel
        ∧ size ≤ 128 * 2 ^ (gboLoop size fuel order (128 * 2 ^ order))
        ∧ (∀ j, j < gboLoop size fuel order (128 * 2 ^ order) → 128 * 2 ^ j < size)) := by
  induction fuel with
  | zero =>
    intro order size h0 hlt
    left
    exact ⟨rfl, by simpa using hlt⟩
  | succ f ih =>
    intro order size h0 hlt
    by_cases hc : 128 * 2 ^ order ≥ size
    · right
      have hg : gboLoop size (f + 1) order (128 * 2 ^ order) = order := by
        unfold gboLoop
        simp [hc]
      rw [hg]
      exact ⟨by omega, hc, hlt⟩
    · have hlt' : ∀ j, j < order + 1 → 128 * 2 ^ j < size := by
        intro j hj
        rcases Nat.lt_succ_iff_lt_or_eq.mp hj with hj' | hj'
        · exact hlt j hj'
        · subst hj'; omega
      have hg : gboLoop size (f + 1) order (128 * 2 ^ order)
          = gboLoop size f (order + 1) (128 * 2 ^ (order + 1)) := by
        show (if 128 * 2 ^ order ≥ size then order
              else gboLoop size f (order + 1) (128 * 2 ^ order * 2))
            = gboLoop size f (order + 1) (128 * 2 ^ (order + 1))
        rw [if_neg hc, pow_succ, mul_assoc]
      rw [hg]
      rcases ih (order + 1) size h0 hlt' with ⟨heq, hall⟩ | ⟨hl, hge, hmin⟩
      · left
        exact ⟨by omega, by intro j hj; exact hall j (by omega)⟩
      · right
        exact ⟨by omega, hge, hmin⟩

theorem GetBlockOrder_spec (n : Nat) (h0 : 0 < n) (h2 : n ≤ 131072) :
    0 ≤ GetBlockOrder n ∧ (GetBlockOrder n).toNat ≤ 10
    ∧ n ≤ 128 * 2 ^ (GetBlockOrder n).toNat
    ∧ ∀ j, j < (GetBlockOrder n).toNat → 128 * 2 ^ j < n := by
  have hbase : (128 * 2 ^ 0 : Nat) = 128 := by norm_num
  have h := gboLoop_spec 11 0 n h0 (by intro j hj; omega)
  rw [hbase] at h
  rcases h with ⟨heq, hall⟩ | ⟨hl, hge, hmin⟩
  · exfalso
    have h10 := hall 10 (by omega)
    norm_num at h10
    omega
  · have hle : gboLoop n 11 0 128 ≤ 10 := by omega
    have hng : ¬ gboLoop n 11 0 128 > 10 := by omega
    unfold GetBlockOrder
    simp only [hng, if_false]
    refine ⟨by positivity, ?_, ?_, ?_⟩
    · simpa using hle
    · simpa using hge
    · intro j hj
      exact hmin j (by simpa using hj)

/-! ### Scan and split lemmas for `CutInHalf` -/

theorem scanFrom_le (fuel : Nat) :
    ∀ (i : Nat) (st : AllocState) (needed fo a : Nat),
    scanFrom st needed i fuel = some (fo, a) → i ≤ fo := by
  induction fuel with
  | zero => intro i st needed fo a h; simp [scanFrom] at h
  | succ f ih =>
    intro i st needed fo a h
    unfold scanFrom at h
    cases hf : FindFirstFreeBlock st.heap (lget st.buddyArray i) needed with
    | some b =>
      rw [hf] at h
      simp at h
      omega
    | none =>
      rw [hf] at h
      have := ih (i + 1) st needed fo a h
      omega

theorem scanFrom_empty (fuel : Nat) :
    ∀ (i : Nat) (st : AllocState) (needed : Nat),
    (∀ j, (lget st.buddyArray j).blocks = []) →
    scanFrom st needed i fuel = none := by
  induction fuel with
  | zero => intro i st needed _; rfl
  | succ f ih =>
    intro i st needed hempty
    unfold scanFrom
    have hf : FindFirstFreeBlock st.heap (lget st.buddyArray i) needed = none := by
      unfold FindFirstFreeBlock
      rw [hempty i]
      rfl
    rw [hf]
    exact ih (i + 1) st needed hempty

theorem SplitStep_hget (st : AllocState) (a j : Nat) (m : MallocMetadata)
    (hm : hget st.heap a = some m) (h2 : 0 < m.size / 2) :
    hget (SplitStep st a j).heap a = some { m with size := m.size / 2, is_free := true } := by
  unfold SplitStep
  rw [hm]
  dsimp only
  rw [hget_hset_ne _ _ _ _ (by omega : a ≠ a + m.size / 2)]
  exact hget_hset_self _ _ _

theorem splitLoop_spec (fuel : Nat) :
    ∀ (st : AllocState) (a j d : Nat) (m : MallocMetadata),
    hget st.heap a = some m → m.size = 128 * 2 ^ j → j = d + fuel →
    (splitLoop st a j fuel).2 = a
    ∧ (hget (splitLoop st a j fuel).1.heap a).map (fun x => x.size) = some (128 * 2 ^ d) := by
  induction fuel with
  | zero =>
    intro st a j d m hm hsz hj
    refine ⟨rfl, ?_⟩
    show (hget st.heap a).map _ = _
    rw [hm]
    simp [hsz, hj]
  | succ f ih =>
    intro st a j d m hm hsz hj
    have hj1 : j - 1 + 1 = j := by omega
    have hhalf : m.size / 2 = 128 * 2 ^ (j - 1) := by
      rw [hsz, ← hj1, pow_succ]
      rw [show 128 * (2 ^ (j - 1) * 2) = 128 * 2 ^ (j - 1) * 2 by ring]
      exact Nat.mul_div_cancel _ (by norm_num)
    have hpos : 0 < m.size / 2 := by rw [hhalf]; positivity
    have hstep := SplitStep_hget st a j m hm hpos
    show (splitLoop (SplitStep st a j) a (j - 1) f).2 = a
      ∧ (hget (splitLoop (SplitStep st a j) a (j - 1) f).1.heap a).map (fun x => x.size)
        = some (128 * 2 ^ d)
    exact ih (SplitStep st a j) a (j - 1) d _ hstep (by simpa using hhalf) (by omega)

/-! ### The buddy address is never the block itself (inside the arena) -/

theorem FindBuddy_ne (base b s : Nat) (hb : base ≤ b) (hs : 0 < s) :
    FindBuddy base b s ≠ b := by
  unfold FindBuddy
  split_ifs <;> omega

/-! ### Routing helpers for `smalloc` -/

theorem smalloc_mmap_path (st : AllocState) (s : Nat)
    (hinit : st.is_buddy_initialized = true) (h0 : s ≠ 0) (hc : ¬ s > 100000000)
    (hbig : s + metaSize > BLOCK_SIZE) (hmm : st.osMmapFail = false) :
    (smalloc st s).2 = some (st.nextMmap + metaSize)
    ∧ hget (smalloc st s).1.heap st.nextMmap = some ⟨GlobalCookie, s, false, true, -1⟩
    ∧ (smalloc st s).1.nextMmap = st.nextMmap + (s + metaSize) := by
  unfold smalloc allocate_with_mmap
  simp [hinit, h0, hc, hbig, hmm, hget_hset_self]

theorem smalloc_buddy_result (st : AllocState) (s : Nat)
    (hinit : st.is_buddy_initialized = true) (h0 : s ≠ 0) (hc : ¬ s > 100000000)
    (hsm : ¬ s + metaSize > BLOCK_SIZE) :
    (smalloc st s).2 = ((CutInHalf st (s + metaSize)).2).map (fun a => a + metaSize) := by
  unfold smalloc
  cases hcr : (CutInHalf st (s + metaSize)).2 with
  | none => simp [hinit, h0, hc, hsm, hcr]
  | some fb => simp [hinit, h0, hc, hsm, hcr]

/-! ### Claim theorems -/

/-- Claim C1: the free-block-count accessor does NOT equal the number of
    blocks enrolled in the free lists plus the free large blocks.  After the
    single public call `smalloc(100)` on a fresh process, the accessor
    returns 49 while the lists hold 41 blocks (and no free large block
    exists): `AddBlock`/`RemoveBlock` already maintain the counters and
    `CutInHalf`/`smalloc` adjust them a second time by hand, and the block
    handed out is never removed from its free list.  This refutes the
    claimed accounting invariant at a reachable state. -/
theorem c1_free_block_counter_drifts :
    _num_free_blocks stAfterAlloc100 = 49
    ∧ enrolledFreeBlocks stAfterAlloc100 = 41
    ∧ _num_free_blocks stAfterAlloc100 ≠ enrolledFreeBlocks stAfterAlloc100 := by
  refine ⟨by decide, by decide, by decide⟩

/-- Claim C7: for every buddy block at address `A` of size `S = 128·2^k`
    (`k ≤ K`) in an arena based at `B ≤ A`, `FindBuddy` computes exactly
    `A + S` when `(A − B) mod 2S = 0` and `A − S` otherwise; the two
    special cases the source carves out for the first and last arena block
    agree with the formula. -/
theorem c7_find_buddy_formula (base A S k : Nat) (hk : k ≤ 10) (hS : S = 128 * 2 ^ k)
    (hb : base ≤ A) :
    FindBuddy base A S = if (A - base) % (2 * S) = 0 then A + S else A - S := by
  subst hS
  unfold FindBuddy
  by_cases h1 : A = base
  · subst h1
    simp
  · by_cases h2 : A = base + NUM_INIT_BLOCKS * BLOCK_SIZE - 128 * 2 ^ k
    · rw [if_neg h1, if_pos h2]
      have hSle : 128 * 2 ^ k ≤ 131072 := by
        have h10 : (2 : Nat) ^ k ≤ 2 ^ 10 := Nat.pow_le_pow_right (by norm_num) hk
        omega
      have ht1 : 1 ≤ (2 : Nat) ^ (14 - k) := Nat.one_le_two_pow
      have h22 : 2 * (128 * 2 ^ k) * 2 ^ (14 - k) = 4194304 := by
        have ht : (2 : Nat) ^ k * 2 ^ (14 - k) = 2 ^ 14 := by
          rw [← pow_add]
          congr 1
          omega
        calc 2 * (128 * 2 ^ k) * 2 ^ (14 - k) = 256 * (2 ^ k * 2 ^ (14 - k)) := by ring
          _ = 256 * 2 ^ 14 := by rw [ht]
          _ = 4194304 := by norm_num
      have hA : A - base = 4194304 - 128 * 2 ^ k := by
        rw [h2]
        have hnb : NUM_INIT_BLOCKS * BLOCK_SIZE = 4194304 := by norm_num [NUM_INIT_BLOCKS, BLOCK_SIZE]
        rw [hnb]
        omega
      have hmod : (A - base) % (2 * (128 * 2 ^ k)) = 128 * 2 ^ k := by
        rw [hA]
        have e1 : (128 * 2 ^ k) * (2 * 2 ^ (14 - k) - 1) + 128 * 2 ^ k = 4194304 := by
          rw [← Nat.mul_succ, Nat.succ_eq_add_one]
          have e2 : 2 * 2 ^ (14 - k) - 1 + 1 = 2 * 2 ^ (14 - k) := by omega
          rw [e2]
          calc (128 * 2 ^ k) * (2 * 2 ^ (14 - k)) = 2 * (128 * 2 ^ k) * 2 ^ (14 - k) := by ring
            _ = 4194304 := h22
        have hrw : 4194304 - 128 * 2 ^ k = (128 * 2 ^ k) * (2 * 2 ^ (14 - k) - 1) := by omega
        rw [hrw, mul_comm 2 (128 * 2 ^ k), Nat.mul_mod_mul_left]
        have e3 : (2 * 2 ^ (14 - k) - 1) % 2 = 1 := by omega
        rw [e3, mul_one]
      have hne : (A - base) % (2 * (128 * 2 ^ k)) ≠ 0 := by
        rw [hmod]
        positivity
      rw [if_neg hne]
    · rw [if_neg h1, if_neg h2]

/-- Witness for C7 at the concrete block `A = 128`, `S = 128`, `B = 0`. -/
theorem c7_find_buddy_formula_witness :
    FindBuddy 0 128 128 = if (128 - 0) % (2 * 128) = 0 then 128 + 128 else 128 - 128 :=
  c7_find_buddy_formula 0 128 128 0 (by decide) (by decide) (by decide)

/-- Claim C5 counterexample: at `n = 0` (which the claim's `n ≤ p` allows),
    `srealloc` frees the live block at payload pointer 296 and returns
    null, not the original pointer. -/
theorem c5_realloc_zero_counterexample :
    hget stBuddy.heap 256 = some ⟨GlobalCookie, 128, false, false, 0⟩
    ∧ (srealloc stBuddy (some 296) 0).2 = none
    ∧ (srealloc stBuddy (some 296) 0).2 ≠ some 296 := by
  refine ⟨by decide, by decide, by decide⟩

/-- Claim C5 (amended): for a live allocation with a valid canary and any
    `1 ≤ n` at most the current payload (footprint minus header on the
    buddy path, stored size on the mmap path), `srealloc` returns the same
    pointer and the state — hence every payload byte — unchanged. -/
theorem c5_realloc_shrink_in_place (st : AllocState) (p n : Nat) (m : MallocMetadata)
    (hm : hget st.heap (p - metaSize) = some m)
    (hc : m.cookie = GlobalCookie) (hn : 1 ≤ n)
    (hp : n ≤ (if m.is_mmap then m.size else m.size - metaSize)) :
    srealloc st (some p) n = (st, some p) := by
  have hsz : m.size ≥ n := by
    by_cases hmm : m.is_mmap
    · simpa [hmm] using hp
    · rw [if_neg (by simp [hmm])] at hp
      omega
  unfold srealloc
  rw [if_neg (by omega : ¬ n = 0)]
  simp [hm, hc, hsz]

/-- Witness for the amended C5 at the block of `stBuddy` with `n = 50`. -/
theorem c5_realloc_shrink_in_place_witness :
    srealloc stBuddy (some 296) 50 = (stBuddy, some 296) :=
  c5_realloc_shrink_in_place stBuddy 296 50 ⟨GlobalCookie, 128, false, false, 0⟩
    (by decide) (by decide) (by decide) (by decide)

/-- Claim C3: `sfree` of a null pointer, of a pointer whose recovered
    header fails the canary check, or of a block already marked free is a
    silent no-op that leaves the whole allocator state (lists, counters,
    heap, break) unchanged; otherwise the block is released — a buddy block
    ends with its `is_free` flag set, an mmap block leaves the large
    registry and its mapping is returned to the OS. -/
theorem c3_sfree_guards_and_release (st : AllocState) (p : Nat) (m : MallocMetadata)
    (hm : hget st.heap (p - metaSize) = some m) :
    sfree st none = st
    ∧ (m.cookie ≠ GlobalCookie → sfree st (some p) = st)
    ∧ (m.cookie = GlobalCookie → m.is_free = true → sfree st (some p) = st)
    ∧ (m.cookie = GlobalCookie → m.is_free = false → m.is_mmap = false →
        (hget (sfree st (some p)).heap (p - metaSize)).map (fun x => x.is_free) = some true)
    ∧ (m.cookie = GlobalCookie → m.is_free = false → m.is_mmap = true →
        st.mmapList.blocks.Nodup →
        hget (sfree st (some p)).heap (p - metaSize) = none
        ∧ (p - metaSize) ∉ (sfree st (some p)).mmapList.blocks) := by
  refine ⟨rfl, ?_, ?_, ?_, ?_⟩
  · intro hcne
    unfold sfree
    simp [hm, hcne]
  · intro hc hf
    unfold sfree
    simp [hm, hc, hf]
  · intro hc hf hmm
    unfold sfree
    simp only [hm]
    rw [if_neg (by simp [hc]), if_neg (by simp [hf]), if_neg (by simp [hmm])]
    by_cases hi : GetBlockOrder m.size < 0
    · rw [if_pos hi]
      simp [hget_hset_self]
    · rw [if_neg hi]
      simp only [isFree_MergeBuddies]
      simp [hget_hset_self]
  · intro hc hf hmm hnd
    unfold sfree
    simp only [hm]
    rw [if_neg (by simp [hc]), if_neg (by simp [hf]), if_pos (by simp [hmm])]
    unfold free_mmap_block
    simp only [hget_hset_self]
    constructor
    · simp [hget_hdelete_self]
    · unfold RemoveBlock
      simp only [hget_hset_self]
      simpa using notMem_erase_self_of_nodup st.mmapList.blocks (p - metaSize) hnd

/-- Witness for C3 at four concrete states: corrupted canary, double free,
    a live buddy block, and a live mmap block. -/
theorem c3_sfree_guards_and_release_witness :
    sfree stBad (some 40) = stBad
    ∧ sfree stFreeB (some 40) = stFreeB
    ∧ (hget (sfree stBuddy (some 296)).heap 256).map (fun x => x.is_free) = some true
    ∧ hget (sfree stMmap (some 4136)).heap 4096 = none
    ∧ 4096 ∉ (sfree stMmap (some 4136)).mmapList.blocks := by
  have h1 := (c3_sfree_guards_and_release stBad 40 ⟨0, 128, false, false, 0⟩
    (by decide)).2.1 (by decide)
  have h2 := (c3_sfree_guards_and_release stFreeB 40 ⟨GlobalCookie, 128, true, false, 0⟩
    (by decide)).2.2.1 (by decide) (by decide)
  have h3 := (c3_sfree_guards_and_release stBuddy 296 ⟨GlobalCookie, 128, false, false, 0⟩
    (by decide)).2.2.2.1 (by decide) (by decide) (by decide)
  have h4 := (c3_sfree_guards_and_release stMmap 4136 ⟨GlobalCookie, 100, false, true, -1⟩
    (by decide)).2.2.2.2 (by decide) (by decide) (by decide) (by decide)
  exact ⟨h1, h2, h3, h4.1, h4.2⟩

/-- Claim C9 counterexample: `smalloc(0)` on a fresh process returns null
    but does NOT leave the allocator state unchanged — `smalloc` validates
    its argument only after ensuring initialization, so the call extends
    the program break by 4MB, sets the initialized flag and populates the
    order-10 free list. -/
theorem c9_smalloc_zero_initializes :
    (smalloc freshState 0).2 = none
    ∧ freshState.is_buddy_initialized = false
    ∧ (smalloc freshState 0).1.is_buddy_initialized = true
    ∧ freshState.brk = 0
    ∧ (smalloc freshState 0).1.brk = 4194304
    ∧ (lget (smalloc freshState 0).1.buddyArray 10).blocks ≠ [] := by
  refine ⟨by decide, by decide, by decide, by decide, by decide, by decide⟩

/-- Claim C9 (amended): every invalid-input call returns null; the
    zero/overflow rejections of `scalloc` precede any state change, and the
    zero-size and above-ceiling rejections of `smalloc` leave the state
    unchanged once the allocator is initialized — on an uninitialized state
    the rejecting call still performs the one-time initialization and
    nothing else. -/
theorem c9_invalid_input_rejection (st : AllocState) (n num sz : Nat) :
    (st.is_buddy_initialized = true → smalloc st 0 = (st, none))
    ∧ (st.is_buddy_initialized = true → 100000000 < n → smalloc st n = (st, none))
    ∧ (num = 0 ∨ sz = 0 → scalloc st num sz = (st, none))
    ∧ (sz ≠ 0 → num * sz % W / sz ≠ num → scalloc st num sz = (st, none))
    ∧ (st.is_buddy_initialized = false → smalloc st 0 = ((initialize_buddy_allocator st).1, none)) := by
  refine ⟨?_, ?_, ?_, ?_, ?_⟩
  · intro hinit
    unfold smalloc
    simp [hinit]
  · intro hinit hn
    unfold smalloc
    simp [hinit, show n = 0 ∨ n > 100000000 from Or.inr hn]
  · intro h
    unfold scalloc
    rw [if_pos h]
  · intro hsz hdiv
    unfold scalloc
    by_cases h0 : num = 0 ∨ sz = 0
    · rw [if_pos h0]
    · rw [if_neg h0]
      simp only
      rw [if_pos ⟨hsz, hdiv⟩]
  · intro hinit
    unfold smalloc
    simp only [hinit, Bool.false_eq_true, if_false]
    by_cases hok : (initialize_buddy_allocator st).2 = false
    · simp [hok]
    · simp [hok]

/-- Witness for the amended C9: concrete rejections at an initialized state
    (`initState`), an overflowing `scalloc`, and the fresh state. -/
theorem c9_invalid_input_rejection_witness :
    smalloc initState 0 = (initState, none)
    ∧ smalloc initState 100000001 = (initState, none)
    ∧ scalloc initState 0 5 = (initState, none)
    ∧ scalloc initState 4294967296 8589934592 = (initState, none)
    ∧ smalloc freshState 0 = ((initialize_buddy_allocator freshState).1, none) := by
  have h1 := (c9_invalid_input_rejection initState 100000001 0 5).1 (by decide)
  have h2 := (c9_invalid_input_rejection initState 100000001 0 5).2.1 (by decide) (by decide)
  have h3 := (c9_invalid_input_rejection initState 100000001 0 5).2.2.1 (Or.inl rfl)
  have h4 := (c9_invalid_input_rejection initState 100000001 4294967296 8589934592).2.2.2.1
    (by decide) (by decide)
  have h5 := (c9_invalid_input_rejection freshState 100000001 0 5).2.2.2.2 (by decide)
  exact ⟨h1, h2, h3, h4, h5⟩

/-- Claim C8 counterexample: with the break extension failing, the
    triggering call returns null and no successful initialization ever
    happens (the flag is set, `BASE` is never published), yet the very next
    public call — a large request served by `mmap` — succeeds, refuting
    "every subsequent public call also fails". -/
theorem c8_large_alloc_succeeds_after_failed_init :
    (smalloc stFail 50).2 = none
    ∧ (smalloc stFail 50).1.is_buddy_initialized = true
    ∧ (smalloc stFail 50).1.base = 0
    ∧ (smalloc (smalloc stFail 50).1 131033).2 = some 4294967336 := by
  refine ⟨by decide, by decide, by decide, by decide⟩

/-- Claim C8 (amended): if a break extension fails, the initializer
    reports failure but has already set the initialized flag, so it is
    never retried; the public call that triggered it returns null, and so
    does every later buddy-path request (the free lists stay empty) — but a
    later large-path request is served by a fresh mapping and succeeds. -/
theorem c8_failed_init_behavior (st : AllocState)
    (hni : st.is_buddy_initialized = false)
    (hbrk : st.osBrkFail = true)
    (hmm : st.osMmapFail = false)
    (hempty : ∀ j, (lget st.buddyArray j).blocks = []) :
    (initialize_buddy_allocator st).2 = false
    ∧ (initialize_buddy_allocator st).1.is_buddy_initialized = true
    ∧ (∀ s, (smalloc st s).2 = none)
    ∧ (∀ s, 0 < s → s + metaSize ≤ BLOCK_SIZE →
        (smalloc (initialize_buddy_allocator st).1 s).2 = none)
    ∧ (∀ s, BLOCK_SIZE < s + metaSize → ¬ s > 100000000 →
        (smalloc (initialize_buddy_allocator st).1 s).2
          = some ((initialize_buddy_allocator st).1.nextMmap + metaSize)) := by
  have hinitEq : initialize_buddy_allocator st
      = ({ st with is_buddy_initialized := true }, false) := by
    have hbrk1 : ({ st with is_buddy_initialized := true } : AllocState).osBrkFail = true := hbrk
    unfold initialize_buddy_allocator
    rw [if_neg (by simp [hni])]
    dsimp only
    by_cases ha : st.brk % (NUM_INIT_BLOCKS * BLOCK_SIZE) = 0
    · rw [if_neg (fun hcon => hcon.1 ha), if_neg (not_not_intro ha), if_pos hbrk1]
    · rw [if_pos ⟨ha, hbrk1⟩]
  have hflag : (initialize_buddy_allocator st).1.is_buddy_initialized = true := by
    rw [hinitEq]
  refine ⟨by rw [hinitEq], hflag, ?_, ?_, ?_⟩
  · intro s
    unfold smalloc
    simp [hni, hinitEq]
  · intro s hs hsle
    have hs40 : s + 40 ≤ 131072 := by simpa [BLOCK_SIZE, metaSize] using hsle
    have hres := smalloc_buddy_result (initialize_buddy_allocator st).1 s hflag
      (by omega) (by omega) (by omega)
    rw [hres]
    unfold CutInHalf
    by_cases hd : GetBlockOrder (s + metaSize) < 0
    · simp [hd]
    · have hemp2 : ∀ j, (lget (initialize_buddy_allocator st).1.buddyArray j).blocks = [] := by
        intro j
        rw [hinitEq]
        exact hempty j
      simp only [hd, if_false]
      rw [scanFrom_empty _ _ _ _ hemp2]
      rfl
  · intro s hbig hceil
    have hbig' : s + 40 > 131072 := by simpa [BLOCK_SIZE, metaSize] using hbig
    have hmm2 : (initialize_buddy_allocator st).1.osMmapFail = false := by
      rw [hinitEq]
      exact hmm
    exact (smalloc_mmap_path _ s hflag (by omega) hceil (by simpa [BLOCK_SIZE, metaSize]) hmm2).1

/-- Witness for the amended C8 at the concrete failing fresh state. -/
theorem c8_failed_init_behavior_witness :
    (smalloc stFail 50).2 = none
    ∧ (smalloc (initialize_buddy_allocator stFail).1 100).2 = none
    ∧ (smalloc (initialize_buddy_allocator stFail).1 131033).2
        = some ((initialize_buddy_allocator stFail).1.nextMmap + metaSize) := by
  have h := c8_failed_init_behavior stFail (by decide) (by decide) (by decide)
    (by
      intro j
      show (lget (List.replicate 11 emptyBL) j).blocks = []
      rw [lget_replicate]
      rfl)
  exact ⟨h.2.2.1 50, h.2.2.2.1 100 (by decide) (by decide), h.2.2.2.2 131033 (by decide) (by decide)⟩

/-- Claim C4 counterexample: in `stC4`, the order-1 block at address 256 is
    freed; its computed buddy is the block at address 0, which has size 128
    (order 0, not matching order 1), is not in the order-1 free list — yet
    the coalesce step merges with it anyway (twice over), leaving a block
    of size 512 at address 0 enrolled at order 3.  This refutes "merged
    only when the buddy is in the free-list at the same order and has
    matching order". -/
theorem c4_merge_ignores_order_counterexample :
    hget stC4.heap 0 = some ⟨GlobalCookie, 128, true, false, 0⟩
    ∧ FindBuddy stC4.base 256 256 = 0
    ∧ 0 ∉ (lget stC4.buddyArray 1).blocks
    ∧ hget (sfree stC4 (some 296)).heap 0 = some ⟨GlobalCookie, 512, true, false, 0⟩
    ∧ 0 ∈ (lget (sfree stC4 (some 296)).buddyArray 3).blocks := by
  refine ⟨by decide, by decide, by decide, by decide, by decide⟩

/-- Claim C4 (amended): during the coalesce step the only predicate the
    code tests is the `is_free` flag of the header found at the buddy
    address — neither the buddy's order/size, nor its largeness, nor its
    membership in the order-k list are checked.  If that flag is clear the
    state is returned unchanged; if it is set the two blocks are merged,
    the lower-address one is kept, enrolled at order k+1, and its size
    doubles. -/
theorem c4_merge_on_is_free_only (st : AllocState) (b j : Nat) (m mb : MallocMetadata)
    (hm : hget st.heap b = some m)
    (hc : m.cookie = GlobalCookie)
    (hj : GetBlockOrder m.size = (j : Int))
    (hjlt : j < 10)
    (hlen : st.buddyArray.length = 11)
    (hmb : hget st.heap (FindBuddy st.base b m.size) = some mb) :
    (mb.is_free = false → MergeBuddies st b (-1) = st)
    ∧ (mb.is_free = true → 2 * mb.size < W → 2 * m.size < W →
        (if FindBuddy st.base b m.size < b then FindBuddy st.base b m.size else b)
          ∈ (lget (MergeBuddies st b ((j : Int) + 1)).buddyArray (j + 1)).blocks
        ∧ (hget (MergeBuddies st b ((j : Int) + 1)).heap
            (if FindBuddy st.base b m.size < b then FindBuddy st.base b m.size else b)).map
              (fun x => x.size)
          = some (2 * (if FindBuddy st.base b m.size < b then mb.size else m.size))) := by
  have htn : ((j : Int)).toNat = j := by omega
  constructor
  · intro hf
    unfold MergeBuddies
    simp only [hm]
    rw [if_neg (by simp [hc])]
    rw [if_neg (by rw [hj]; omega)]
    rw [hj]
    simp only [if_true]
    have hfuel : ((MAX_ORDER : Int) - (j : Int)).toNat = (10 - j - 1) + 1 := by
      simp only [MAX_ORDER]
      omega
    rw [hfuel]
    simp only [htn]
    unfold MergeLoop
    simp only [hm]
    simp [hmb, hf]
  · intro hf h2mb h2m
    unfold MergeBuddies
    simp only [hm]
    rw [if_neg (by simp [hc])]
    rw [if_neg (by rw [hj]; omega)]
    rw [hj]
    rw [if_neg (by omega : ¬ ((j : Int) + 1 = -1))]
    have hfuel : (((j : Int) + 1) - (j : Int)).toNat = 0 + 1 := by omega
    rw [hfuel]
    simp only [htn]
    unfold MergeLoop
    simp only [hm]
    simp only [hmb, hf, if_true]
    simp only [MergeLoop]
    unfold MergeStep
    simp only [hm, hmb]
    by_cases hlt : FindBuddy st.base b m.size < b
    · simp only [hlt, if_true]
      constructor
      · rw [lget_lset_self _ _ _ (by rw [lset_length, hlen]; omega)]
        simp only [AddBlock, hmb]
        exact insertSorted_self_mem _ _
      · rw [hget_hset_self]
        have hmod : mb.size * 2 % W = 2 * mb.size := by
          rw [Nat.mod_eq_of_lt (by omega : mb.size * 2 < W)]
          ring
        simp [hmod]
    · simp only [hlt, if_false]
      constructor
      · rw [lget_lset_self _ _ _ (by rw [lset_length, hlen]; omega)]
        simp only [AddBlock, hm]
        exact insertSorted_self_mem _ _
      · rw [hget_hset_self]
        have hmod : m.size * 2 % W = 2 * m.size := by
          rw [Nat.mod_eq_of_lt (by omega : m.size * 2 < W)]
          ring
        simp [hmod]

/-- Witness for the amended C4 at `stC6`: the block at 0 has a non-free
    buddy (no merge), the block at 128 has a free buddy at 0 (merge into
    order 1 at the lower address with doubled size). -/
theorem c4_merge_on_is_free_only_witness :
    MergeBuddies stC6 0 (-1) = stC6
    ∧ ((if FindBuddy stC6.base 128 128 < 128 then FindBuddy stC6.base 128 128 else 128)
        ∈ (lget (MergeBuddies stC6 128 ((0 : Int) + 1)).buddyArray (0 + 1)).blocks
      ∧ (hget (MergeBuddies stC6 128 ((0 : Int) + 1)).heap
          (if FindBuddy stC6.base 128 128 < 128 then FindBuddy stC6.base 128 128 else 128)).map
            (fun x => x.size)
        = some (2 * (if FindBuddy stC6.base 128 128 < 128 then 128 else 128))) := by
  have h1 := (c4_merge_on_is_free_only stC6 0 0
    ⟨GlobalCookie, 128, true, false, 0⟩ ⟨GlobalCookie, 128, false, false, 0⟩
    (by decide) (by decide) (by decide) (by decide) (by decide) (by decide)).1 (by decide)
  have h2 := (c4_merge_on_is_free_only stC6 128 0
    ⟨GlobalCookie, 128, false, false, 0⟩ ⟨GlobalCookie, 128, true, false, 0⟩
    (by decide) (by decide) (by decide) (by decide) (by decide) (by decide)).2
    (by decide) (by decide) (by decide)
  exact ⟨h1, h2⟩

/-- Claim C2: for every valid request size `s` (`0 < s ≤ 10^8`) on an
    initialized state, if `s + H > L` the request is served by a fresh
    mapping (header `is_mmap`, fresh address, size `s`); otherwise it is
    served from the buddy arena through `CutInHalf (s + H)`, whose target
    order `GetBlockOrder (s + H)` is the least `k` with `S(k) = 128·2^k ≥
    s + H`, the free lists being scanned from order `k` up to `K = 10`, and
    a hit of size `S(i)` at order `i` being split down to a block of size
    exactly `S(k)` at the same (lower-half) address. -/
theorem c2_allocation_routing (st : AllocState) (s : Nat)
    (h0 : 0 < s) (hceil : s ≤ 100000000) (hinit : st.is_buddy_initialized = true) :
    (s + metaSize > BLOCK_SIZE → st.osMmapFail = false →
      (smalloc st s).2 = some (st.nextMmap + metaSize)
      ∧ hget (smalloc st s).1.heap st.nextMmap = some ⟨GlobalCookie, s, false, true, -1⟩)
    ∧ (s + metaSize ≤ BLOCK_SIZE →
      (s + metaSize ≤ 128 * 2 ^ (GetBlockOrder (s + metaSize)).toNat
        ∧ (∀ j, j < (GetBlockOrder (s + metaSize)).toNat → 128 * 2 ^ j < s + metaSize))
      ∧ (smalloc st s).2 = ((CutInHalf st (s + metaSize)).2).map (fun a => a + metaSize)
      ∧ (∀ fo a m, scanFrom st (s + metaSize) (GetBlockOrder (s + metaSize)).toNat
            (11 - (GetBlockOrder (s + metaSize)).toNat) = some (fo, a) →
          hget st.heap a = some m → m.size = 128 * 2 ^ fo →
          (CutInHalf st (s + metaSize)).2 = some a
          ∧ (hget (CutInHalf st (s + metaSize)).1.heap a).map (fun x => x.size)
            = some (128 * 2 ^ (GetBlockOrder (s + metaSize)).toNat))) := by
  constructor
  · intro hbig hmm
    have h := smalloc_mmap_path st s hinit (by omega) (by omega) hbig hmm
    exact ⟨h.1, h.2.1⟩
  · intro hsm
    have hn0 : 0 < s + metaSize := by omega
    have hn2 : s + metaSize ≤ 131072 := by simpa [BLOCK_SIZE] using hsm
    have hspec := GetBlockOrder_spec (s + metaSize) hn0 hn2
    refine ⟨⟨hspec.2.2.1, hspec.2.2.2⟩, ?_, ?_⟩
    · exact smalloc_buddy_result st s hinit (by omega) (by omega) (by omega)
    · intro fo a m hscan hma hsz
      have hd0 : ¬ GetBlockOrder (s + metaSize) < 0 := by omega
      have hfo : (GetBlockOrder (s + metaSize)).toNat ≤ fo := scanFrom_le _ _ _ _ _ _ hscan
      have hsplit := splitLoop_spec (fo - (GetBlockOrder (s + metaSize)).toNat) st a fo
        (GetBlockOrder (s + metaSize)).toNat m hma hsz (by omega)
      unfold CutInHalf
      rw [if_neg hd0]
      simp only [hscan]
      exact ⟨by rw [hsplit.1], hsplit.2⟩

/-- Witness for C2: at `initState`, the large request 1000000 is served by
    a fresh mapping, and the request 100 is served from the buddy arena —
    the scan hits the order-10 block at address 0 (footprint `128·2^10`)
    and splits it down to the least sufficient order, order 1, returning
    address 0. -/
theorem c2_allocation_routing_witness :
    (smalloc initState 1000000).2 = some (initState.nextMmap + metaSize)
    ∧ (smalloc initState 100).2 = ((CutInHalf initState 140).2).map (fun a => a + metaSize)
    ∧ (CutInHalf initState 140).2 = some 0
    ∧ 140 ≤ 128 * 2 ^ (GetBlockOrder 140).toNat := by
  have hA := (c2_allocation_routing initState 1000000 (by decide) (by decide) (by decide)).1
    (by decide) (by decide)
  have hB := (c2_allocation_routing initState 100 (by decide) (by decide) (by decide)).2
    (by decide)
  have h3 := hB.2.2 10 0 ⟨GlobalCookie, 131072, true, false, 10⟩ (by decide) (by decide) (by decide)
  exact ⟨hA.1, hB.2.1, h3.1, hB.1.1⟩

/-- Claim C6: the in-place coalescing optimization of `srealloc` is NOT
    restricted to buddies on the right.  In `stC6` the allocated block at
    address 128 (payload pointer 168) has its only buddy at address 0 — to
    its LEFT — yet `CheckIfMergePossible` accepts it (returns order 1),
    `MergeBuddies` absorbs the left buddy, and `srealloc(168, 150)` returns
    the original pointer while the merged block — flagged free and enrolled
    in the order-1 list — now starts at address 0 and contains the caller's
    payload region; the header the returned pointer sits over is stale. -/
theorem c6_leftward_merge_performed :
    CheckIfMergePossible stC6 128 190 = 1
    ∧ FindBuddy stC6.base 128 128 = 0
    ∧ (srealloc stC6 (some 168) 150).2 = some 168
    ∧ hget (srealloc stC6 (some 168) 150).1.heap 0
        = some ⟨GlobalCookie, 256, true, false, 0⟩
    ∧ hget (srealloc stC6 (some 168) 150).1.heap 128
        = some ⟨GlobalCookie, 128, false, false, 0⟩
    ∧ 0 ∈ (lget (srealloc stC6 (some 168) 150).1.buddyArray 1).blocks := by
  refine ⟨by decide, by decide, by decide, by decide, by decide, by decide⟩

/-- Claim C10: the header `size` field has path-dependent semantics that
    the operations preserve — the initializer writes the full top-order
    footprint `S(K) = 131072` (header included) into every arena block, a
    split stores half the parent's footprint in both halves, a merge step
    doubles the kept block's footprint, while `allocate_with_mmap` stores
    only the user payload size (header excluded, the mapping itself being
    `size + H` bytes).  Consequently `srealloc`'s uniform `size >= newSize`
    retention test mixes the two conventions: of two live blocks with equal
    88-byte payloads, the buddy block is retained in place for a 100-byte
    request while the mmap block is not. -/
theorem c10_size_field_semantics :
    (∀ i, i < 32 → hget initState.heap (i * 131072) = some ⟨GlobalCookie, 131072, true, false, 10⟩)
    ∧ (∀ st a j m, hget st.heap a = some m → 2 ≤ m.size →
        (hget (SplitStep st a j).heap a).map (fun x => x.size) = some (m.size / 2)
        ∧ hget (SplitStep st a j).heap (a + m.size / 2)
            = some ⟨GlobalCookie, m.size / 2, true, false, 0⟩)
    ∧ (∀ st b bud j m mb, hget st.heap b = some m → hget st.heap bud = some mb →
        2 * mb.size < W → 2 * m.size < W →
        (hget (MergeStep st b bud j).heap (if bud < b then bud else b)).map (fun x => x.size)
          = some (2 * (if bud < b then mb.size else m.size)))
    ∧ (∀ st us, st.osMmapFail = false →
        hget (allocate_with_mmap st us).1.heap st.nextMmap
          = some ⟨GlobalCookie, us, false, true, -1⟩
        ∧ (allocate_with_mmap st us).1.nextMmap = st.nextMmap + (us + metaSize))
    ∧ ((srealloc stMix (some 40) 100).2 = some 40
        ∧ (srealloc stMix (some 4136) 100).2 = none) := by
  refine ⟨?_, ?_, ?_, ?_, by decide, by decide⟩
  · intro i hi
    interval_cases i <;> decide
  · intro st a j m hm h2
    have hpos : 0 < m.size / 2 := by omega
    constructor
    · rw [SplitStep_hget st a j m hm hpos]
      rfl
    · unfold SplitStep
      rw [hm]
      dsimp only
      exact hget_hset_self _ _ _
  · intro st b bud j m mb hm hmb h2mb h2m
    unfold MergeStep
    simp only [hm, hmb]
    by_cases hlt : bud < b
    · simp only [hlt, if_true]
      rw [hget_hset_self]
      have hmod : mb.size * 2 % W = 2 * mb.size := by
        rw [Nat.mod_eq_of_lt (by omega : mb.size * 2 < W)]
        ring
      simp [hmod]
    · simp only [hlt, if_false]
      rw [hget_hset_self]
      have hmod : m.size * 2 % W = 2 * m.size := by
        rw [Nat.mod_eq_of_lt (by omega : m.size * 2 < W)]
        ring
      simp [hmod]
  · intro st us hmm
    unfold allocate_with_mmap
    simp [hmm, hget_hset_self]

/-- Witness for C10: the concrete init block at index 5, a concrete split
    of the 128-byte block of `stFreeB`, the concrete merge of `stC6`'s
    blocks, and a concrete 77-byte mapping over `stMmap`. -/
theorem c10_size_field_semantics_witness :
    hget initState.heap (5 * 131072) = some ⟨GlobalCookie, 131072, true, false, 10⟩
    ∧ (hget (SplitStep stFreeB 0 0).heap 0).map (fun x => x.size) = some (128 / 2)
    ∧ hget (SplitStep stFreeB 0 0).heap (0 + 128 / 2) = some ⟨GlobalCookie, 128 / 2, true, false, 0⟩
    ∧ (hget (MergeStep stC6 128 0 0).heap (if (0 : Nat) < 128 then 0 else 128)).map
        (fun x => x.size) = some (2 * (if (0 : Nat) < 128 then 128 else 128))
    ∧ hget (allocate_with_mmap stMmap 77).1.heap stMmap.nextMmap
        = some ⟨GlobalCookie, 77, false, true, -1⟩ := by
  have h := c10_size_field_semantics
  have hsplit := h.2.1 stFreeB 0 0 ⟨GlobalCookie, 128, true, false, 0⟩ (by decide) (by decide)
  have hmerge := h.2.2.1 stC6 128 0 0 ⟨GlobalCookie, 128, false, false, 0⟩
    ⟨GlobalCookie, 128, true, false, 0⟩ (by decide) (by decide) (by decide) (by decide)
  exact ⟨h.1 5 (by omega), hsplit.1, hsplit.2, hmerge, (h.2.2.2.1 stMmap 77 (by decide)).1⟩
